import Mathlib

/-!
Shallow embedding of the ai-fallback composite model: the default error
classifier (src/error-classifier.ts), the backoff calculator and the
cancellable sleep (src/utils.ts), the composite construction
(src/fallback-model.ts, createFallbackModel) and the fallback orchestration
loop (src/fallback-model.ts, executeWithFallback), together with theorems
settling the frozen claims about them.

Conventions of the embedding:
- models are an opaque type M, failures an opaque type Err, results T;
- each call of the wrapped operation on model i at attempt a is modelled by
  op i a, an Except value, which fixes one execution trace;
- the abort signal is modelled as the sequence of values the orchestrator
  reads from it: abortedAt n is what signal.aborted reads at the n-th
  observation (one observation at the top of each attempt, one when sleep is
  entered, one for whether the signal fires during the wait);
- Math.random draws are modelled by a stream jit of rationals in [0, 1);
- JavaScript numbers used as millisecond delays are naturals, the retry
  budget is an integer (the code distinguishes negative values).
-/

/-- The three-way classification of a caught failure (src/types.ts,
ErrorClassification). -/
inductive Classification where
  | retry
  | fallback
  | throw
deriving DecidableEq

/-- The observable shape of an APICallError from the provider SDK: an
optional HTTP status code, the SDK retryable flag, and a message. -/
structure APICallErrorShape where
  statusCode : Option ℤ
  isRetryable : Bool
  message : String
deriving DecidableEq

/-- A caught JavaScript failure as discriminated by defaultShouldRetry: an
APICallError, a TypeError (with its message), or any other value. -/
inductive JSError where
  | apiCall (d : APICallErrorShape)
  | typeError (message : String)
  | other (message : String)
deriving DecidableEq

/-- Whether a character list starts with the characters of "fetch". -/
def startsWithFetch : List Char → Bool
  | 'f' :: 'e' :: 't' :: 'c' :: 'h' :: _ => true
  | _ => false

/-- JavaScript String.prototype.includes for the fixed needle "fetch". -/
def containsFetch : List Char → Bool
  | [] => false
  | c :: cs => startsWithFetch (c :: cs) || containsFetch cs

/-- The test status !== undefined && status >= 500 from defaultShouldRetry. -/
def statusAtLeast500 : Option ℤ → Bool
  | some s => decide (500 ≤ s)
  | none => false

/-- The default error classifier (src/error-classifier.ts,
defaultShouldRetry), branch for branch: 429 falls back, defined status at
least 500 retries, the SDK retryable flag retries, remaining APICallErrors
throw; a TypeError whose message contains "fetch" retries; anything else
throws. -/
def defaultShouldRetry : JSError → Classification
  | .apiCall d =>
    if d.statusCode = some 429 then .fallback
    else if statusAtLeast500 d.statusCode then .retry
    else if d.isRetryable then .retry
    else .throw
  | .typeError message =>
    if containsFetch message.toList then .retry else .throw
  | .other _ => .throw

/-- The network-transport detection the classifier uses: the failure is a
TypeError whose message contains "fetch" (src/error-classifier.ts line 38). -/
def isNetworkTransport : JSError → Bool
  | .typeError message => containsFetch message.toList
  | _ => false

/-- Exponential backoff with jitter (src/utils.ts, calculateDelay). rand
models the draw of Math.random, a value in the half-open unit interval, so
the jitter factor is 0.5 + rand * 0.5; Math.round of the non-negative
product is the floor of the value plus one half. -/
def calculateDelay (attempt baseDelayMs maxDelayMs : ℕ) (rand : ℚ) : ℤ :=
  let exponential : ℕ := min maxDelayMs (baseDelayMs * 2 ^ attempt)
  let jitter : ℚ := 1 / 2 + rand * (1 / 2)
  ⌊(exponential : ℚ) * jitter + 1 / 2⌋

/-- One entry of a supported-urls record: a media type with URL patterns. -/
abbrev UrlEntry := String × List String

/-- Insert patterns for a media type into the merged association list,
appending to an existing entry or creating a new one (src/utils.ts,
mergeSupportedUrls inner loop). -/
def addPatterns : List UrlEntry → String → List String → List UrlEntry
  | [], mediaType, patterns => [(mediaType, patterns)]
  | (k, v) :: rest, mediaType, patterns =>
    if k = mediaType then (k, v ++ patterns) :: rest
    else (k, v) :: addPatterns rest mediaType patterns

/-- Union of the supported-urls records of all models, in chain order
(src/utils.ts, mergeSupportedUrls). -/
def mergeSupportedUrls {M : Type} (supportedUrlsOf : M → List UrlEntry)
    (models : List M) : List UrlEntry :=
  models.foldl (fun merged m =>
    (supportedUrlsOf m).foldl (fun acc p => addPatterns acc p.1 p.2) merged) []

/-- The numeric configuration of the orchestration loop. -/
structure Cfg where
  maxRetriesPerModel : ℤ
  baseDelayMs : ℕ
  maxDelayMs : ℕ
deriving DecidableEq

/-- Configuration accepted by createFallbackModel (src/types.ts,
FallbackModelConfig), with the defaults of src/fallback-model.ts
lines 38 to 49. -/
structure FallbackModelConfig (M : Type) where
  models : List M
  maxRetriesPerModel : ℤ := 0
  baseDelayMs : ℕ := 1000
  maxDelayMs : ℕ := 30000
  provider : Option String := none
  modelId : Option String := none

/-- The composite model value returned by createFallbackModel. -/
structure CompositeModel (M : Type) where
  provider : String
  modelId : String
  supportedUrls : List UrlEntry
  models : List M
  cfg : Cfg

/-- Construction of the composite (src/fallback-model.ts,
createFallbackModel): defaults are resolved, then the empty-chain check
raises a configuration error before mergeSupportedUrls touches any model. -/
def createFallbackModel {M : Type} (getModelId : M → String)
    (supportedUrlsOf : M → List UrlEntry) (config : FallbackModelConfig M) :
    Except String (CompositeModel M) :=
  let provider := config.provider.getD "fallback"
  let modelId := config.modelId.getD
    (String.intercalate " -> " (config.models.map getModelId))
  if config.models.length = 0 then
    Except.error "createFallbackModel requires at least one model"
  else
    Except.ok { provider := provider, modelId := modelId,
                supportedUrls := mergeSupportedUrls supportedUrlsOf config.models,
                models := config.models,
                cfg := ⟨config.maxRetriesPerModel, config.baseDelayMs,
                        config.maxDelayMs⟩ }

/-- A lifecycle event emitted by the orchestrator (src/types.ts: ErrorEvent,
RetryEvent, FallbackEvent, with the payload fields of each). -/
inductive Event (M Err : Type) where
  | error (modelIndex : ℕ) (model : M) (err : Err)
      (classification : Classification)
  | retry (modelIndex : ℕ) (model : M) (attempt : ℕ) (maxRetries : ℤ)
      (err : Err) (delayMs : ℤ)
  | fallback (failedModelIndex : ℕ) (failedModel : M) (nextModelIndex : ℕ)
      (nextModel : M) (err : Err) (totalAttempts : ℕ)
deriving DecidableEq

/-- Whether an event is a Fallback event. -/
def Event.isFallbackEvent {M Err : Type} : Event M Err → Bool
  | .fallback _ _ _ _ _ _ => true
  | _ => false

/-- The outcome of one invocation of doGenerate or doStream on the
composite: a successful value, a raised failure (fatal classification or
cancellation, propagated unwrapped), or the AllModelsExhaustedError carrying
the accumulated (model, error) list (src/errors.ts). -/
inductive RunResult (M T Err : Type) where
  | ok (value : T)
  | thrown (err : Err)
  | exhausted (errors : List (M × Err))
deriving DecidableEq

/-- The cancellation signal: abortedAt n is what signal.aborted reads at the
n-th observation the orchestrator makes of it, and reason is the optional
abort reason. -/
structure AbortSignal (Err : Type) where
  abortedAt : ℕ → Bool
  reason : Option Err

/-- options.abortSignal?.aborted at the n-th observation. -/
def checkAborted {Err : Type} : Option (AbortSignal Err) → ℕ → Bool
  | none, _ => false
  | some s, n => s.abortedAt n

/-- signal.reason ?? new DOMException("Aborted", "AbortError"); abortErr
stands for the freshly constructed DOMException. -/
def abortReason {Err : Type} (sig : Option (AbortSignal Err)) (abortErr : Err) :
    Err :=
  match sig with
  | none => abortErr
  | some s => s.reason.getD abortErr

/-- The state threaded through executeWithFallback: the accumulated errors
array (src/fallback-model.ts line 61), the events emitted so far, the
operations invoked so far as (modelIndex, attempt) pairs, and counters for
signal observations and Math.random draws. -/
structure St (M Err : Type) where
  errors : List (M × Err)
  events : List (Event M Err)
  opCalls : List (ℕ × ℕ)
  checks : ℕ
  draws : ℕ
deriving DecidableEq

/-- The state at the start of one executeWithFallback invocation. -/
def St.init {M Err : Type} : St M Err := ⟨[], [], [], 0, 0⟩

/-- Result of the inner (per-model) attempt loop: either the whole
invocation finishes (return or raise), or control moves to the next model. -/
inductive InnerOut (M T Err : Type) where
  | done (r : RunResult M T Err) (st : St M Err)
  | next (st : St M Err)
deriving DecidableEq

/-- The inner attempt loop of executeWithFallback (src/fallback-model.ts
lines 66 to 122), with an explicit iteration budget as the structural
argument; attemptLoop below supplies the budget under which the budget never
cuts the loop short, so the loop condition alone governs exit. One
iteration: check the abort signal, invoke the operation, classify a failure,
emit the Error event, raise on Throw, record the failure, on Retry within
budget compute the delay, emit the Retry event and sleep (two further signal
observations), otherwise emit the Fallback event when a next model exists
and leave the loop. -/
def attemptLoopGo {M T Err : Type} (cfg : Cfg)
    (shouldRetry : Err → Classification) (op : ℕ → ℕ → Except Err T)
    (sig : Option (AbortSignal Err)) (abortErr : Err) (jit : ℕ → ℚ)
    (modelIndex : ℕ) (model : M) (rest : List M) :
    ℕ → ℕ → St M Err → InnerOut M T Err
  | 0, _, st => .next st
  | fuel + 1, attempt, st =>
    if (attempt : ℤ) ≤ cfg.maxRetriesPerModel then
      if checkAborted sig st.checks then
        .done (.thrown (abortReason sig abortErr))
          { st with checks := st.checks + 1 }
      else
        let st1 : St M Err :=
          { st with
            checks := st.checks + 1
            opCalls := st.opCalls ++ [(modelIndex, attempt)] }
        match op modelIndex attempt with
        | .ok value => .done (.ok value) st1
        | .error e =>
          let cls := shouldRetry e
          let st2 : St M Err :=
            { st1 with events := st1.events ++ [.error modelIndex model e cls] }
          if cls = .throw then
            .done (.thrown e) st2
          else
            let st3 : St M Err := { st2 with errors := st2.errors ++ [(model, e)] }
            if cls = .retry ∧ (attempt : ℤ) < cfg.maxRetriesPerModel then
              let delay := calculateDelay attempt cfg.baseDelayMs cfg.maxDelayMs
                (jit st3.draws)
              let st4 : St M Err :=
                { st3 with
                  events := st3.events ++
                    [.retry modelIndex model (attempt + 1)
                      cfg.maxRetriesPerModel e delay]
                  draws := st3.draws + 1 }
              if checkAborted sig st4.checks then
                .done (.thrown (abortReason sig abortErr))
                  { st4 with checks := st4.checks + 1 }
              else if checkAborted sig (st4.checks + 1) then
                .done (.thrown (abortReason sig abortErr))
                  { st4 with checks := st4.checks + 2 }
              else
                attemptLoopGo cfg shouldRetry op sig abortErr jit modelIndex
                  model rest fuel (attempt + 1) { st4 with checks := st4.checks + 2 }
            else
              match rest with
              | [] => .next st3
              | nextModel :: _ =>
                .next { st3 with events := st3.events ++
                  [.fallback modelIndex model (modelIndex + 1) nextModel e
                    (attempt + 1)] }
    else .next st

/-- The inner for-loop over attempt (src/fallback-model.ts line 66): runs
attemptLoopGo with budget (maxRetriesPerModel + 1).toNat - attempt. That
budget is positive exactly while the loop condition
attempt <= maxRetriesPerModel can still hold, and each iteration that
continues preserves the budget-to-attempt relation, so the budget reaching
zero coincides with the loop condition failing. -/
def attemptLoop {M T Err : Type} (cfg : Cfg)
    (shouldRetry : Err → Classification) (op : ℕ → ℕ → Except Err T)
    (sig : Option (AbortSignal Err)) (abortErr : Err) (jit : ℕ → ℚ)
    (modelIndex : ℕ) (model : M) (rest : List M) (attempt : ℕ)
    (st : St M Err) : InnerOut M T Err :=
  attemptLoopGo cfg shouldRetry op sig abortErr jit modelIndex model rest
    ((cfg.maxRetriesPerModel + 1).toNat - attempt) attempt st

/-- The outer for-loop over modelIndex (src/fallback-model.ts line 63):
walks the remaining models; when they run out, the accumulated errors are
raised as the AllModelsExhaustedError (line 125). -/
def modelLoop {M T Err : Type} (cfg : Cfg)
    (shouldRetry : Err → Classification) (op : ℕ → ℕ → Except Err T)
    (sig : Option (AbortSignal Err)) (abortErr : Err) (jit : ℕ → ℚ) :
    ℕ → List M → St M Err → RunResult M T Err × St M Err
  | _, [], st => (.exhausted st.errors, st)
  | modelIndex, m :: rest, st =>
    match attemptLoop cfg shouldRetry op sig abortErr jit modelIndex m rest 0 st with
    | .done r st2 => (r, st2)
    | .next st2 =>
      modelLoop cfg shouldRetry op sig abortErr jit (modelIndex + 1) rest st2

/-- executeWithFallback (src/fallback-model.ts lines 57 to 126): one
invocation of doGenerate or doStream on the composite, returning its outcome
and the final trace state. -/
def executeWithFallback {M T Err : Type} (models : List M) (cfg : Cfg)
    (shouldRetry : Err → Classification) (op : ℕ → ℕ → Except Err T)
    (sig : Option (AbortSignal Err)) (abortErr : Err) (jit : ℕ → ℚ) :
    RunResult M T Err × St M Err :=
  modelLoop cfg shouldRetry op sig abortErr jit 0 models St.init

/-- The run resumed from an arbitrary orchestrator position: model
modelIndex (value model, remaining chain rest) at attempt number attempt
with accumulated state st; finishes the current inner loop, then continues
the outer loop over rest. For a chain m :: rest, the whole invocation is
this resumption at position (0, m, rest, 0, St.init). -/
def resumeRun {M T Err : Type} (cfg : Cfg)
    (shouldRetry : Err → Classification) (op : ℕ → ℕ → Except Err T)
    (sig : Option (AbortSignal Err)) (abortErr : Err) (jit : ℕ → ℚ)
    (modelIndex : ℕ) (model : M) (rest : List M) (attempt : ℕ)
    (st : St M Err) : RunResult M T Err × St M Err :=
  match attemptLoop cfg shouldRetry op sig abortErr jit modelIndex model rest
      attempt st with
  | .done r st2 => (r, st2)
  | .next st2 =>
    modelLoop cfg shouldRetry op sig abortErr jit (modelIndex + 1) rest st2

/-- Specification of the errors recorded for one model when every attempt on
it fails and none is classified Throw: the failures of attempts 0, 1, and so
on up to the first attempt not both Retry-classified and strictly within the
retry budget, with the same iteration budget bookkeeping as attemptLoopGo. -/
def modelErrorsGo {Err : Type} (shouldRetry : Err → Classification)
    (maxR : ℤ) (e : ℕ → Err) : ℕ → ℕ → List Err
  | 0, _ => []
  | fuel + 1, a =>
    if (a : ℤ) ≤ maxR then
      if shouldRetry (e a) = .retry ∧ (a : ℤ) < maxR then
        e a :: modelErrorsGo shouldRetry maxR e fuel (a + 1)
      else [e a]
    else []

/-- modelErrorsGo from attempt 0 with the budget attemptLoop uses there. -/
def modelErrors {Err : Type} (shouldRetry : Err → Classification) (maxR : ℤ)
    (e : ℕ → Err) : List Err :=
  modelErrorsGo shouldRetry maxR e (maxR + 1).toNat 0

/-- A rate-limited failure: APICallError with status 429 (test.ts mocks). -/
def e429 : JSError := .apiCall ⟨some 429, true, "Rate limited"⟩

/-- A transient server failure: APICallError with status 500. -/
def e500 : JSError := .apiCall ⟨some 500, true, "Server error"⟩

/-- A client-fault failure: APICallError with status 401, not retryable. -/
def e401 : JSError := .apiCall ⟨some 401, false, "Unauthorized"⟩

/-- A caller-supplied cancellation reason. -/
def cancelReason : JSError := .other "cancelled by caller"

/-- The generic DOMException("Aborted", "AbortError") stand-in. -/
def abortE : JSError := .other "Aborted"

/-- Claim C7: for every attempt number, base delay, cap, and draw of the
jitter source in the unit interval, the computed backoff delay lies between
one half of min(cap, base * 2 ^ attempt) and min(cap, base * 2 ^ attempt). -/
theorem backoff_delay_bounds (attempt baseDelayMs maxDelayMs : ℕ) (rand : ℚ)
    (h0 : 0 ≤ rand) (h1 : rand < 1) :
    ((min maxDelayMs (baseDelayMs * 2 ^ attempt) : ℕ) : ℚ) / 2 ≤
      (calculateDelay attempt baseDelayMs maxDelayMs rand : ℚ) ∧
    (calculateDelay attempt baseDelayMs maxDelayMs rand : ℚ) ≤
      ((min maxDelayMs (baseDelayMs * 2 ^ attempt) : ℕ) : ℚ) := by
  have hd : calculateDelay attempt baseDelayMs maxDelayMs rand =
      ⌊((min maxDelayMs (baseDelayMs * 2 ^ attempt) : ℕ) : ℚ) *
        (1 / 2 + rand * (1 / 2)) + 1 / 2⌋ := rfl
  set E : ℕ := min maxDelayMs (baseDelayMs * 2 ^ attempt) with hE
  set x : ℚ := (E : ℚ) * (1 / 2 + rand * (1 / 2)) with hx
  have hEQ : (0 : ℚ) ≤ (E : ℚ) := by positivity
  have hxlo : (E : ℚ) * (1 / 2) ≤ x := by
    rw [hx]
    apply mul_le_mul_of_nonneg_left _ hEQ
    linarith
  have hxhi : x ≤ (E : ℚ) := by
    rw [hx]
    calc (E : ℚ) * (1 / 2 + rand * (1 / 2)) ≤ (E : ℚ) * 1 := by
          apply mul_le_mul_of_nonneg_left _ hEQ
          linarith
      _ = (E : ℚ) := mul_one _
  rw [hd]
  constructor
  · rcases Nat.even_or_odd E with ⟨k, hk⟩ | ⟨k, hk⟩
    · have hkx : ((k : ℤ) : ℚ) ≤ x + 1 / 2 := by
        have : ((k : ℕ) : ℚ) ≤ x := by
          calc ((k : ℕ) : ℚ) = (E : ℚ) * (1 / 2) := by
                rw [hk]; push_cast; ring
            _ ≤ x := hxlo
        push_cast
        linarith
      have hfl : (k : ℤ) ≤ ⌊x + 1 / 2⌋ := Int.le_floor.mpr hkx
      have : ((k : ℤ) : ℚ) ≤ (⌊x + 1 / 2⌋ : ℚ) := by exact_mod_cast hfl
      rw [hk]
      push_cast
      push_cast at this
      linarith
    · have hEk : (E : ℚ) * (1 / 2) = (k : ℚ) + 1 / 2 := by
        rw [hk]; push_cast; ring
      have hfl : ((k : ℤ) + 1) ≤ ⌊x + 1 / 2⌋ := by
        apply Int.le_floor.mpr
        push_cast
        linarith [hxlo]
      have hcast : (((k : ℤ) + 1) : ℚ) ≤ (⌊x + 1 / 2⌋ : ℚ) := by exact_mod_cast hfl
      rw [hk]
      push_cast
      push_cast at hcast
      linarith
  · have hfl : ((⌊x + 1 / 2⌋ : ℤ) : ℚ) ≤ x + 1 / 2 := Int.floor_le _
    have h2 : ((⌊x + 1 / 2⌋ : ℤ) : ℚ) < ((E : ℤ) : ℚ) + 1 := by
      push_cast
      push_cast at hfl
      linarith
    have h3 : ⌊x + 1 / 2⌋ < (E : ℤ) + 1 := by exact_mod_cast h2
    have h4 : ⌊x + 1 / 2⌋ ≤ (E : ℤ) := by omega
    exact_mod_cast h4

/-- Witness for backoff_delay_bounds at attempt 1, base 1000, cap 30000 and
a draw of one third. -/
theorem backoff_delay_bounds_witness :
    ((min 30000 (1000 * 2 ^ 1) : ℕ) : ℚ) / 2 ≤
      (calculateDelay 1 1000 30000 (1 / 3) : ℚ) ∧
    (calculateDelay 1 1000 30000 (1 / 3) : ℚ) ≤
      ((min 30000 (1000 * 2 ^ 1) : ℕ) : ℚ) :=
  backoff_delay_bounds 1 1000 30000 (1 / 3) (by norm_num) (by norm_num)

/-- Counterexample to claim C2: a status 400 failure whose retryable flag is
set is classified Retry by defaultShouldRetry, not Throw — the flag check at
src/error-classifier.ts line 29 precedes the 4xx fall-through at line 34. -/
theorem client_error_throw_cex :
    defaultShouldRetry (.apiCall ⟨some 400, true, "Bad Request"⟩) =
      Classification.retry ∧
    Classification.retry ≠ Classification.throw :=
  ⟨by decide, by decide⟩

/-- Claim C2 as amended: for every failure carrying a status code in
[400, 500) other than 429 whose retryable flag is not set, the default
classifier returns Throw, whatever the message. -/
theorem client_error_throws_when_not_retryable (s : ℤ) (message : String)
    (h4 : 400 ≤ s) (h5 : s < 500) (h429 : s ≠ 429) :
    defaultShouldRetry (.apiCall ⟨some s, false, message⟩) =
      Classification.throw := by
  have h1 : ¬ ((some s : Option ℤ) = some 429) := by simpa using h429
  have h2 : statusAtLeast500 (some s) = false := by
    simp only [statusAtLeast500, decide_eq_false_iff_not]
    omega
  simp [defaultShouldRetry, h1, h2]

/-- Witness for client_error_throws_when_not_retryable at status 403. -/
theorem client_error_throws_witness :
    defaultShouldRetry (.apiCall ⟨some 403, false, "Forbidden"⟩) =
      Classification.throw :=
  client_error_throws_when_not_retryable 403 "Forbidden" (by norm_num)
    (by norm_num) (by norm_num)

/-- Claim C8: every failure detected as a network-transport failure (a
TypeError whose message contains "fetch") is classified Retry by the default
classifier. -/
theorem network_transport_failure_retries (err : JSError)
    (h : isNetworkTransport err = true) :
    defaultShouldRetry err = Classification.retry := by
  cases err with
  | apiCall d => simp [isNetworkTransport] at h
  | typeError message =>
    simp only [isNetworkTransport, String.toList] at h
    simp [defaultShouldRetry, String.toList, h]
  | other m => simp [isNetworkTransport] at h

/-- Witness for network_transport_failure_retries on "fetch failed". -/
theorem network_transport_retries_witness :
    defaultShouldRetry (.typeError "fetch failed") = Classification.retry :=
  network_transport_failure_retries (.typeError "fetch failed") (by decide)

/-- Claim C9: constructing the composite with an empty model list fails with
the configuration error, before mergeSupportedUrls or any operation could
run (the error branch consults no model). -/
theorem empty_models_construction_error {M : Type} (getModelId : M → String)
    (supportedUrlsOf : M → List UrlEntry) (config : FallbackModelConfig M)
    (h : config.models = []) :
    createFallbackModel getModelId supportedUrlsOf config =
      Except.error "createFallbackModel requires at least one model" := by
  simp [createFallbackModel, h]

/-- Witness for empty_models_construction_error on a concrete empty chain. -/
theorem empty_models_construction_error_witness :
    createFallbackModel (fun m : String => m) (fun _ => [])
        { models := ([] : List String) } =
      Except.error "createFallbackModel requires at least one model" :=
  empty_models_construction_error _ _ _ rfl

/-- Claim C3: three models all failing with status 429 under a retry budget
of zero: the run ends in the AllModelsExhaustedError carrying exactly the
three (model, error) pairs in chain order; the trace holds exactly two
Fallback events, and the last event is the final Error event, not a
Fallback. -/
theorem scenario_all_429_three_models :
    executeWithFallback ["model-a", "model-b", "model-c"] ⟨0, 1000, 30000⟩
        defaultShouldRetry (fun _ _ => (Except.error e429 : Except JSError Unit))
        none abortE (fun _ => 0) =
      (.exhausted [("model-a", e429), ("model-b", e429), ("model-c", e429)],
       ⟨[("model-a", e429), ("model-b", e429), ("model-c", e429)],
        [.error 0 "model-a" e429 .fallback,
         .fallback 0 "model-a" 1 "model-b" e429 1,
         .error 1 "model-b" e429 .fallback,
         .fallback 1 "model-b" 2 "model-c" e429 1,
         .error 2 "model-c" e429 .fallback],
        [(0, 0), (1, 0), (2, 0)], 3, 0⟩) ∧
    ((executeWithFallback ["model-a", "model-b", "model-c"] ⟨0, 1000, 30000⟩
        defaultShouldRetry (fun _ _ => (Except.error e429 : Except JSError Unit))
        none abortE
        (fun _ => 0)).2.events.filter Event.isFallbackEvent).length = 2 ∧
    (executeWithFallback ["model-a", "model-b", "model-c"] ⟨0, 1000, 30000⟩
        defaultShouldRetry (fun _ _ => (Except.error e429 : Except JSError Unit))
        none abortE (fun _ => 0)).2.events.getLast? =
      some (.error 2 "model-c" e429 .fallback) :=
  ⟨by decide, by decide, by decide⟩

/-- Counterexample to claim C1: one model, retry budget 1, both attempts
fail with status 500 — the aggregate error holds two (model, error) pairs
for the single attempted-and-abandoned model, so the pairs are not one per
abandoned backend (the first projections are not distinct). -/
theorem aggregate_one_pair_per_backend_cex :
    (executeWithFallback ["only-model"] ⟨1, 1000, 30000⟩ defaultShouldRetry
        (fun _ _ => (Except.error e500 : Except JSError Unit)) none abortE
        (fun _ => 0)).1 =
      .exhausted [("only-model", e500), ("only-model", e500)] ∧
    ¬ ([("only-model", e500), ("only-model", e500)].map Prod.fst).Nodup :=
  ⟨by decide, by decide⟩

/-- Counterexample to claim C5: with maxRetriesPerModel = -1 the inner loop
body never runs, so a signal that is active from the start is never
consulted: the call rejects with the empty AllModelsExhaustedError, not with
a cancellation failure. -/
theorem abort_before_first_attempt_cex :
    executeWithFallback ["only-model"] ⟨-1, 1000, 30000⟩ defaultShouldRetry
        (fun _ _ => (Except.error e429 : Except JSError Unit))
        (some ⟨fun _ => true, some cancelReason⟩) abortE (fun _ => 0) =
      (.exhausted [], St.init) ∧
    (RunResult.exhausted [] : RunResult String Unit JSError) ≠
      .thrown cancelReason :=
  ⟨by decide, by decide⟩

/-- Claim C10: with a negative maxRetriesPerModel, every invocation performs
no attempt at all: no operation is invoked, no event fires, no signal
observation happens, and the call rejects with the AllModelsExhaustedError
over the empty failure list. -/
theorem negative_retries_empty_exhaustion {M T Err : Type} (models : List M)
    (cfg : Cfg) (shouldRetry : Err → Classification)
    (op : ℕ → ℕ → Except Err T) (sig : Option (AbortSignal Err))
    (abortErr : Err) (jit : ℕ → ℚ) (hneg : cfg.maxRetriesPerModel < 0) :
    executeWithFallback models cfg shouldRetry op sig abortErr jit =
      (.exhausted [], St.init) := by
  have hfuel : (cfg.maxRetriesPerModel + 1).toNat = 0 := by omega
  have aux : ∀ (l : List M) (idx : ℕ) (st : St M Err),
      modelLoop cfg shouldRetry op sig abortErr jit idx l st =
        (.exhausted st.errors, st) := by
    intro l
    induction l with
    | nil => intro idx st; rfl
    | cons m rest ih =>
      intro idx st
      have hstep :
          attemptLoop cfg shouldRetry op sig abortErr jit idx m rest 0 st =
            .next st := by
        unfold attemptLoop
        rw [Nat.sub_zero, hfuel]
        rfl
      simp only [modelLoop, hstep]
      exact ih (idx + 1) st
  simpa [executeWithFallback] using aux models 0 St.init

/-- The whole invocation on a nonempty chain is the run resumed at the
first model, attempt 0, from the initial state. -/
theorem executeWithFallback_cons {M T Err : Type} (m : M) (rest : List M)
    (cfg : Cfg) (shouldRetry : Err → Classification)
    (op : ℕ → ℕ → Except Err T) (sig : Option (AbortSignal Err))
    (abortErr : Err) (jit : ℕ → ℚ) :
    executeWithFallback (m :: rest) cfg shouldRetry op sig abortErr jit =
      resumeRun cfg shouldRetry op sig abortErr jit 0 m rest 0 St.init := rfl

/-- Claim C5 as amended: when maxRetriesPerModel is nonnegative (so the
attempt loop body runs), a signal already active at the first observation
makes the invocation fail immediately with the cancellation failure (the
signal reason, or the generic abort error when none is set): no event is
emitted, no operation is invoked, no failure is recorded. With a negative
maxRetriesPerModel the signal is never consulted; see
abort_before_first_attempt_cex. -/
theorem abort_before_first_attempt {M T Err : Type} (m : M) (rest : List M)
    (cfg : Cfg) (shouldRetry : Err → Classification)
    (op : ℕ → ℕ → Except Err T) (s : AbortSignal Err) (abortErr : Err)
    (jit : ℕ → ℚ) (hmax : 0 ≤ cfg.maxRetriesPerModel)
    (h0 : s.abortedAt 0 = true) :
    executeWithFallback (m :: rest) cfg shouldRetry op (some s) abortErr jit =
      (.thrown (s.reason.getD abortErr), ⟨[], [], [], 1, 0⟩) := by
  have hcond : ((0 : ℕ) : ℤ) ≤ cfg.maxRetriesPerModel := by simpa using hmax
  have hf : (cfg.maxRetriesPerModel + 1).toNat - 0 =
      cfg.maxRetriesPerModel.toNat + 1 := by omega
  have hstep :
      attemptLoop cfg shouldRetry op (some s) abortErr jit 0 m rest 0 St.init =
        .done (.thrown (s.reason.getD abortErr)) ⟨[], [], [], 1, 0⟩ := by
    unfold attemptLoop
    rw [hf]
    simp only [attemptLoopGo, checkAborted]
    rw [if_pos hcond]
    simp [St.init, h0, abortReason]
  simp only [executeWithFallback, modelLoop, hstep]

/-- Witness for abort_before_first_attempt on a concrete one-model chain
with an already-aborted signal carrying a reason. -/
theorem abort_before_first_attempt_witness :
    executeWithFallback ["only-model"] ⟨0, 1000, 30000⟩ defaultShouldRetry
        (fun _ _ => (Except.error e429 : Except JSError Unit))
        (some ⟨fun _ => true, some cancelReason⟩) abortE (fun _ => 0) =
      (.thrown cancelReason, ⟨[], [], [], 1, 0⟩) := by
  have h := abort_before_first_attempt "only-model" [] ⟨0, 1000, 30000⟩
    defaultShouldRetry (fun _ _ => (Except.error e429 : Except JSError Unit))
    ⟨fun _ => true, some cancelReason⟩ abortE (fun _ => 0) (by norm_num) rfl
  simpa using h

/-- Claim C6: at any orchestrator position (any model index, any attempt
number, any accumulated state), a caught failure classified Throw makes the
resumed run raise that exact failure value: the only new event is its Error
event (no Retry, no Fallback), and the accumulated failure list is left
unchanged, so the failure is not folded into any aggregate error. -/
theorem throw_classification_short_circuits {M T Err : Type} (cfg : Cfg)
    (shouldRetry : Err → Classification) (op : ℕ → ℕ → Except Err T)
    (sig : Option (AbortSignal Err)) (abortErr : Err) (jit : ℕ → ℚ)
    (i : ℕ) (m : M) (rest : List M) (a : ℕ) (st : St M Err) (e : Err)
    (ha : (a : ℤ) ≤ cfg.maxRetriesPerModel)
    (hab : checkAborted sig st.checks = false)
    (hop : op i a = .error e)
    (hcls : shouldRetry e = .throw) :
    resumeRun cfg shouldRetry op sig abortErr jit i m rest a st =
      (.thrown e,
       ⟨st.errors, st.events ++ [.error i m e .throw],
        st.opCalls ++ [(i, a)], st.checks + 1, st.draws⟩) := by
  have hf : (cfg.maxRetriesPerModel + 1).toNat - a =
      ((cfg.maxRetriesPerModel + 1).toNat - a - 1) + 1 := by omega
  have hstep :
      attemptLoop cfg shouldRetry op sig abortErr jit i m rest a st =
        .done (.thrown e)
          ⟨st.errors, st.events ++ [.error i m e .throw],
           st.opCalls ++ [(i, a)], st.checks + 1, st.draws⟩ := by
    unfold attemptLoop
    rw [hf]
    simp only [attemptLoopGo]
    rw [if_pos ha, hab, hop]
    simp [hcls]
  simp only [resumeRun, hstep]

/-- Witness for throw_classification_short_circuits: a 401 on the primary
model propagates unwrapped although a backup model exists. -/
theorem throw_short_circuit_witness :
    resumeRun ⟨0, 1000, 30000⟩ defaultShouldRetry
        (fun _ _ => (Except.error e401 : Except JSError Unit)) none abortE
        (fun _ => 0) 0 "primary" ["backup"] 0 St.init =
      (.thrown e401, ⟨[], [.error 0 "primary" e401 .throw], [(0, 0)], 1, 0⟩) := by
  have h := throw_classification_short_circuits ⟨0, 1000, 30000⟩
      defaultShouldRetry (fun _ _ => (Except.error e401 : Except JSError Unit))
      none abortE (fun _ => 0) 0 "primary" ["backup"] 0 St.init e401
      (by norm_num) rfl rfl (by decide)
  simpa using h

/-- Step equation: the loop condition fails, the inner loop exits. -/
theorem attemptLoopGo_cond_false {M T Err : Type} (cfg : Cfg)
    (shouldRetry : Err → Classification) (op : ℕ → ℕ → Except Err T)
    (sig : Option (AbortSignal Err)) (abortErr : Err) (jit : ℕ → ℚ)
    (i : ℕ) (m : M) (rest : List M) (f a : ℕ) (st : St M Err)
    (hcond : ¬ ((a : ℤ) ≤ cfg.maxRetriesPerModel)) :
    attemptLoopGo (T := T) cfg shouldRetry op sig abortErr jit i m rest
      (f + 1) a st = .next st := by
  simp [attemptLoopGo, hcond]

/-- Step equation: the signal reads aborted at the top of the attempt. -/
theorem attemptLoopGo_abort_top {M T Err : Type} (cfg : Cfg)
    (shouldRetry : Err → Classification) (op : ℕ → ℕ → Except Err T)
    (sig : Option (AbortSignal Err)) (abortErr : Err) (jit : ℕ → ℚ)
    (i : ℕ) (m : M) (rest : List M) (f a : ℕ) (st : St M Err)
    (hcond : (a : ℤ) ≤ cfg.maxRetriesPerModel)
    (hab : checkAborted sig st.checks = true) :
    attemptLoopGo (T := T) cfg shouldRetry op sig abortErr jit i m rest
      (f + 1) a st =
      .done (.thrown (abortReason sig abortErr))
        ⟨st.errors, st.events, st.opCalls, st.checks + 1, st.draws⟩ := by
  simp [attemptLoopGo, hcond, hab]

/-- Step equation: the failure is classified Retry within budget and the
sleep completes, so the loop continues at the next attempt. -/
theorem attemptLoopGo_retry_cont {M T Err : Type} (cfg : Cfg)
    (shouldRetry : Err → Classification) (op : ℕ → ℕ → Except Err T)
    (sig : Option (AbortSignal Err)) (abortErr : Err) (jit : ℕ → ℚ)
    (i : ℕ) (m : M) (rest : List M) (f a : ℕ) (st : St M Err) (er : Err)
    (hcond : (a : ℤ) ≤ cfg.maxRetriesPerModel)
    (hab : checkAborted sig st.checks = false)
    (hop : op i a = .error er)
    (hr : shouldRetry er = .retry)
    (hlt : (a : ℤ) < cfg.maxRetriesPerModel)
    (hs1 : checkAborted sig (st.checks + 1) = false)
    (hs2 : checkAborted sig (st.checks + 2) = false) :
    attemptLoopGo (T := T) cfg shouldRetry op sig abortErr jit i m rest
      (f + 1) a st =
      attemptLoopGo (T := T) cfg shouldRetry op sig abortErr jit i m rest f
        (a + 1)
        ⟨st.errors ++ [(m, er)],
         st.events ++ [.error i m er .retry,
           .retry i m (a + 1) cfg.maxRetriesPerModel er
             (calculateDelay a cfg.baseDelayMs cfg.maxDelayMs (jit st.draws))],
         st.opCalls ++ [(i, a)], st.checks + 1 + 2, st.draws + 1⟩ := by
  simp [attemptLoopGo, hcond, hab, hop, hr, hlt, hs1, hs2]

/-- Step equation: Retry within budget, but the signal reads aborted when
the sleep is entered. -/
theorem attemptLoopGo_retry_abort_entry {M T Err : Type} (cfg : Cfg)
    (shouldRetry : Err → Classification) (op : ℕ → ℕ → Except Err T)
    (sig : Option (AbortSignal Err)) (abortErr : Err) (jit : ℕ → ℚ)
    (i : ℕ) (m : M) (rest : List M) (f a : ℕ) (st : St M Err) (er : Err)
    (hcond : (a : ℤ) ≤ cfg.maxRetriesPerModel)
    (hab : checkAborted sig st.checks = false)
    (hop : op i a = .error er)
    (hr : shouldRetry er = .retry)
    (hlt : (a : ℤ) < cfg.maxRetriesPerModel)
    (hs1 : checkAborted sig (st.checks + 1) = true) :
    attemptLoopGo (T := T) cfg shouldRetry op sig abortErr jit i m rest
      (f + 1) a st =
      .done (.thrown (abortReason sig abortErr))
        ⟨st.errors ++ [(m, er)],
         st.events ++ [.error i m er .retry,
           .retry i m (a + 1) cfg.maxRetriesPerModel er
             (calculateDelay a cfg.baseDelayMs cfg.maxDelayMs (jit st.draws))],
         st.opCalls ++ [(i, a)], st.checks + 1 + 1, st.draws + 1⟩ := by
  simp [attemptLoopGo, hcond, hab, hop, hr, hlt, hs1]

/-- Step equation: Retry within budget, the sleep is entered, and the
signal fires during the wait. -/
theorem attemptLoopGo_retry_abort_during {M T Err : Type} (cfg : Cfg)
    (shouldRetry : Err → Classification) (op : ℕ → ℕ → Except Err T)
    (sig : Option (AbortSignal Err)) (abortErr : Err) (jit : ℕ → ℚ)
    (i : ℕ) (m : M) (rest : List M) (f a : ℕ) (st : St M Err) (er : Err)
    (hcond : (a : ℤ) ≤ cfg.maxRetriesPerModel)
    (hab : checkAborted sig st.checks = false)
    (hop : op i a = .error er)
    (hr : shouldRetry er = .retry)
    (hlt : (a : ℤ) < cfg.maxRetriesPerModel)
    (hs1 : checkAborted sig (st.checks + 1) = false)
    (hs2 : checkAborted sig (st.checks + 2) = true) :
    attemptLoopGo (T := T) cfg shouldRetry op sig abortErr jit i m rest
      (f + 1) a st =
      .done (.thrown (abortReason sig abortErr))
        ⟨st.errors ++ [(m, er)],
         st.events ++ [.error i m er .retry,
           .retry i m (a + 1) cfg.maxRetriesPerModel er
             (calculateDelay a cfg.baseDelayMs cfg.maxDelayMs (jit st.draws))],
         st.opCalls ++ [(i, a)], st.checks + 1 + 2, st.draws + 1⟩ := by
  simp [attemptLoopGo, hcond, hab, hop, hr, hlt, hs1, hs2]

/-- Step equation: non-fatal failure without a retry in budget, on the last
model of the chain: no Fallback event, the inner loop exits. -/
theorem attemptLoopGo_give_up_last {M T Err : Type} (cfg : Cfg)
    (shouldRetry : Err → Classification) (op : ℕ → ℕ → Except Err T)
    (sig : Option (AbortSignal Err)) (abortErr : Err) (jit : ℕ → ℚ)
    (i : ℕ) (m : M) (f a : ℕ) (st : St M Err) (er : Err)
    (hcond : (a : ℤ) ≤ cfg.maxRetriesPerModel)
    (hab : checkAborted sig st.checks = false)
    (hop : op i a = .error er)
    (hnthrow : shouldRetry er ≠ .throw)
    (hnr : ¬ (shouldRetry er = .retry ∧ (a : ℤ) < cfg.maxRetriesPerModel)) :
    attemptLoopGo (T := T) cfg shouldRetry op sig abortErr jit i m []
      (f + 1) a st =
      .next ⟨st.errors ++ [(m, er)],
        st.events ++ [.error i m er (shouldRetry er)],
        st.opCalls ++ [(i, a)], st.checks + 1, st.draws⟩ := by
  simp [attemptLoopGo, hcond, hab, hop, hnthrow, hnr]

/-- Step equation: non-fatal failure without a retry in budget, with a next
model present: the Fallback event fires and the inner loop exits. -/
theorem attemptLoopGo_give_up_next {M T Err : Type} (cfg : Cfg)
    (shouldRetry : Err → Classification) (op : ℕ → ℕ → Except Err T)
    (sig : Option (AbortSignal Err)) (abortErr : Err) (jit : ℕ → ℚ)
    (i : ℕ) (m nextModel : M) (rest2 : List M) (f a : ℕ) (st : St M Err)
    (er : Err)
    (hcond : (a : ℤ) ≤ cfg.maxRetriesPerModel)
    (hab : checkAborted sig st.checks = false)
    (hop : op i a = .error er)
    (hnthrow : shouldRetry er ≠ .throw)
    (hnr : ¬ (shouldRetry er = .retry ∧ (a : ℤ) < cfg.maxRetriesPerModel)) :
    attemptLoopGo (T := T) cfg shouldRetry op sig abortErr jit i m
      (nextModel :: rest2) (f + 1) a st =
      .next ⟨st.errors ++ [(m, er)],
        st.events ++ [.error i m er (shouldRetry er),
          .fallback i m (i + 1) nextModel er (a + 1)],
        st.opCalls ++ [(i, a)], st.checks + 1, st.draws⟩ := by
  simp [attemptLoopGo, hcond, hab, hop, hnthrow, hnr]

/-- When every attempt on model i fails and none of those failures is
classified Throw, the inner loop (with no signal present) always hands
control to the next model, having appended to the errors array exactly one
(model, failure) pair per attempt performed, as listed by modelErrorsGo with
the same budget. -/
theorem attemptLoopGo_all_fail {M T Err : Type} (cfg : Cfg)
    (shouldRetry : Err → Classification) (op : ℕ → ℕ → Except Err T)
    (abortErr : Err) (jit : ℕ → ℚ) (i : ℕ) (m : M) (rest : List M)
    (e : ℕ → Err)
    (hop : ∀ a, op i a = .error (e a))
    (hnf : ∀ a, shouldRetry (e a) ≠ .throw) :
    ∀ (fuel a : ℕ) (st : St M Err), ∃ st2,
      attemptLoopGo (T := T) cfg shouldRetry op none abortErr jit i m rest
          fuel a st = .next st2 ∧
      st2.errors = st.errors ++
        (modelErrorsGo shouldRetry cfg.maxRetriesPerModel e fuel a).map
          (fun err => (m, err)) := by
  intro fuel
  induction fuel with
  | zero =>
    intro a st
    exact ⟨st, rfl, by simp [modelErrorsGo]⟩
  | succ f ih =>
    intro a st
    by_cases hcond : (a : ℤ) ≤ cfg.maxRetriesPerModel
    · by_cases hr : shouldRetry (e a) = .retry ∧
          (a : ℤ) < cfg.maxRetriesPerModel
      · have hmod : modelErrorsGo shouldRetry cfg.maxRetriesPerModel e
            (f + 1) a =
            e a :: modelErrorsGo shouldRetry cfg.maxRetriesPerModel e f
              (a + 1) := by
          simp only [modelErrorsGo]
          rw [if_pos hcond, if_pos hr]
        rw [attemptLoopGo_retry_cont cfg shouldRetry op none abortErr jit i m
          rest f a st (e a) hcond rfl (hop a) hr.1 hr.2 rfl rfl, hmod]
        obtain ⟨st2, h1, h2⟩ := ih (a + 1)
          ⟨st.errors ++ [(m, e a)],
           st.events ++ [.error i m (e a) .retry,
             .retry i m (a + 1) cfg.maxRetriesPerModel (e a)
               (calculateDelay a cfg.baseDelayMs cfg.maxDelayMs
                 (jit st.draws))],
           st.opCalls ++ [(i, a)], st.checks + 1 + 2, st.draws + 1⟩
        refine ⟨st2, h1, ?_⟩
        rw [h2]
        simp
      · have hmod : modelErrorsGo shouldRetry cfg.maxRetriesPerModel e
            (f + 1) a = [e a] := by
          simp only [modelErrorsGo]
          rw [if_pos hcond, if_neg hr]
        cases rest with
        | nil =>
          rw [attemptLoopGo_give_up_last cfg shouldRetry op none abortErr jit
            i m f a st (e a) hcond rfl (hop a) (hnf a) hr, hmod]
          exact ⟨_, rfl, by simp⟩
        | cons nextModel rest2 =>
          rw [attemptLoopGo_give_up_next cfg shouldRetry op none abortErr jit
            i m nextModel rest2 f a st (e a) hcond rfl (hop a) (hnf a) hr,
            hmod]
          exact ⟨_, rfl, by simp⟩
    · rw [attemptLoopGo_cond_false cfg shouldRetry op none abortErr jit i m
        rest f a st hcond]
      have hmod : modelErrorsGo shouldRetry cfg.maxRetriesPerModel e
          (f + 1) a = [] := by
        simp only [modelErrorsGo]
        rw [if_neg hcond]
      rw [hmod]
      exact ⟨st, rfl, by simp⟩

/-- Walking the remaining chain from any model index with every attempt on
every model failing non-fatally (and no signal present) ends in exhaustion,
with the accumulated errors extended by, for each remaining model in chain
order, one pair per attempt performed on it. -/
theorem modelLoop_all_fail {M T Err : Type} (cfg : Cfg)
    (shouldRetry : Err → Classification) (op : ℕ → ℕ → Except Err T)
    (abortErr : Err) (jit : ℕ → ℚ) (e : ℕ → ℕ → Err)
    (hop : ∀ i a, op i a = .error (e i a))
    (hnf : ∀ i a, shouldRetry (e i a) ≠ .throw) :
    ∀ (l : List M) (idx : ℕ) (st : St M Err),
      (modelLoop (T := T) cfg shouldRetry op none abortErr jit idx l st).1 =
        .exhausted (st.errors ++
          (List.enumFrom idx l).flatMap (fun p =>
            (modelErrors shouldRetry cfg.maxRetriesPerModel (e p.1)).map
              (fun err => (p.2, err)))) := by
  intro l
  induction l with
  | nil =>
    intro idx st
    simp [modelLoop, List.enumFrom]
  | cons m rest ih =>
    intro idx st
    obtain ⟨st2, h1, h2⟩ := attemptLoopGo_all_fail (T := T) cfg shouldRetry op
      abortErr jit idx m rest (e idx) (hop idx) (hnf idx)
      ((cfg.maxRetriesPerModel + 1).toNat - 0) 0 st
    have hstep :
        attemptLoop cfg shouldRetry op none abortErr jit idx m rest 0 st =
          .next st2 := h1
    simp only [modelLoop, hstep]
    rw [ih (idx + 1) st2]
    rw [h2]
    simp only [Nat.sub_zero] at h2 ⊢
    simp [modelErrors, List.enumFrom, List.append_assoc]

/-- Claim C1 as amended: with no cancellation signal, when every attempt
fails and every failure is classified Retry or Fallback (never Throw), the
invocation ends in the AllModelsExhaustedError whose (model, failure) list
is, for each model of the chain in order, one pair per attempt performed on
that model (its failures of attempts 0, 1, ... up to the first attempt not
both Retry-classified and within the retry budget) — at least one pair per
abandoned model when the budget is nonnegative, several pairs for a model
that was retried, and no pair for models never reached. -/
theorem exhausted_one_pair_per_failed_attempt {M T Err : Type}
    (models : List M) (cfg : Cfg) (shouldRetry : Err → Classification)
    (op : ℕ → ℕ → Except Err T) (abortErr : Err) (jit : ℕ → ℚ)
    (e : ℕ → ℕ → Err)
    (hop : ∀ i a, op i a = .error (e i a))
    (hnf : ∀ i a, shouldRetry (e i a) ≠ .throw) :
    (executeWithFallback models cfg shouldRetry op none abortErr jit).1 =
      .exhausted ((List.enumFrom 0 models).flatMap (fun p =>
        (modelErrors shouldRetry cfg.maxRetriesPerModel (e p.1)).map
          (fun err => (p.2, err)))) := by
  have h := modelLoop_all_fail (T := T) cfg shouldRetry op abortErr jit e hop
    hnf models 0 St.init
  simpa [executeWithFallback, St.init] using h

/-- Witness for exhausted_one_pair_per_failed_attempt: two models, retry
budget 1; the first model's failures are Retry-classified (status 500), the
second model's are Fallback-classified (status 429), so the aggregate lists
the first model twice and the second once. -/
theorem exhausted_one_pair_per_failed_attempt_witness :
    (executeWithFallback ["unstable", "limited"] ⟨1, 1000, 30000⟩
        defaultShouldRetry
        (fun i _ => (Except.error (if i = 0 then e500 else e429) :
          Except JSError Unit))
        none abortE (fun _ => 0)).1 =
      .exhausted [("unstable", e500), ("unstable", e500),
        ("limited", e429)] := by
  rw [exhausted_one_pair_per_failed_attempt ["unstable", "limited"]
    ⟨1, 1000, 30000⟩ defaultShouldRetry
    (fun i _ => (Except.error (if i = 0 then e500 else e429) :
      Except JSError Unit))
    abortE (fun _ => 0) (fun i _ => if i = 0 then e500 else e429)
    (fun _ _ => rfl) (fun i _ => by dsimp only; split <;> decide)]
  decide

/-- Peeling the first index off a map over an initial segment. -/
theorem range_map_shift {α : Type} (g : ℕ → α) (n : ℕ) :
    (List.range (n + 1)).map g =
      g 0 :: (List.range n).map (fun k => g (k + 1)) := by
  rw [List.range_succ_eq_map, List.map_cons, List.map_map]
  rfl

/-- Peeling the first index off a flat map over an initial segment. -/
theorem range_flatMap_shift {α : Type} (F : ℕ → List α) (n : ℕ) :
    (List.range (n + 1)).flatMap F =
      F 0 ++ (List.range n).flatMap (fun k => F (k + 1)) := by
  rw [List.range_succ_eq_map, List.flatMap_cons, List.flatMap_map]

/-- If the orchestrator is at model i, attempt a0, and attempts a0 through
a0 + n all fail with Retry-classified failures strictly within budget, the
signal staying quiet through every observation until it fires during the
sleep of attempt a0 + n, then the inner loop raises the cancellation value
(the signal reason, or the generic abort error): the events emitted are
exactly the Error and Retry events of those attempts (nothing after the
cancellation), and the failures recorded stay in the errors array without
ever reaching an aggregate error. -/
theorem attemptLoopGo_cancel_in_sleep {M T Err : Type} (cfg : Cfg)
    (shouldRetry : Err → Classification) (op : ℕ → ℕ → Except Err T)
    (s : AbortSignal Err) (abortErr : Err) (jit : ℕ → ℚ) (i : ℕ) (m : M)
    (rest : List M) (e : ℕ → Err) :
    ∀ (n fuel a0 : ℕ) (st : St M Err), n < fuel →
    (∀ b, b ≤ n → op i (a0 + b) = .error (e (a0 + b))) →
    (∀ b, b ≤ n → shouldRetry (e (a0 + b)) = .retry) →
    (∀ b, b ≤ n → ((a0 + b : ℕ) : ℤ) < cfg.maxRetriesPerModel) →
    (∀ j, j < 3 * n + 2 → s.abortedAt (st.checks + j) = false) →
    s.abortedAt (st.checks + (3 * n + 2)) = true →
    attemptLoopGo (T := T) cfg shouldRetry op (some s) abortErr jit i m rest
        fuel a0 st =
      .done (.thrown (s.reason.getD abortErr))
        ⟨st.errors ++ (List.range (n + 1)).map (fun k => (m, e (a0 + k))),
         st.events ++ (List.range (n + 1)).flatMap (fun k =>
           [.error i m (e (a0 + k)) .retry,
            .retry i m (a0 + k + 1) cfg.maxRetriesPerModel (e (a0 + k))
              (calculateDelay (a0 + k) cfg.baseDelayMs cfg.maxDelayMs
                (jit (st.draws + k)))]),
         st.opCalls ++ (List.range (n + 1)).map (fun k => (i, a0 + k)),
         st.checks + (3 * n + 2) + 1, st.draws + (n + 1)⟩ := by
  intro n
  induction n with
  | zero =>
    intro fuel a0 st hfuel hop hcls hlt habort hfire
    obtain ⟨f, rfl⟩ : ∃ f, fuel = f + 1 := ⟨fuel - 1, by omega⟩
    have hlt0 : ((a0 : ℕ) : ℤ) < cfg.maxRetriesPerModel := by
      have := hlt 0 (le_refl 0)
      simpa using this
    have hop0 : op i a0 = .error (e a0) := by simpa using hop 0 (le_refl 0)
    have hcls0 : shouldRetry (e a0) = .retry := by
      simpa using hcls 0 (le_refl 0)
    have hab0 : checkAborted (some s) st.checks = false := by
      have := habort 0 (by omega)
      simpa [checkAborted] using this
    have hab1 : checkAborted (some s) (st.checks + 1) = false := by
      have := habort 1 (by omega)
      simpa [checkAborted] using this
    have hab2 : checkAborted (some s) (st.checks + 2) = true := by
      simpa [checkAborted] using hfire
    rw [attemptLoopGo_retry_abort_during cfg shouldRetry op (some s) abortErr
      jit i m rest f a0 st (e a0) (le_of_lt hlt0) hab0 hop0 hcls0 hlt0 hab1
      hab2]
    rfl
  | succ n ih =>
    intro fuel a0 st hfuel hop hcls hlt habort hfire
    obtain ⟨f, rfl⟩ : ∃ f, fuel = f + 1 := ⟨fuel - 1, by omega⟩
    have hlt0 : ((a0 : ℕ) : ℤ) < cfg.maxRetriesPerModel := by
      have := hlt 0 (by omega)
      simpa using this
    have hop0 : op i a0 = .error (e a0) := by simpa using hop 0 (by omega)
    have hcls0 : shouldRetry (e a0) = .retry := by
      simpa using hcls 0 (by omega)
    have hab0 : checkAborted (some s) st.checks = false := by
      have := habort 0 (by omega)
      simpa [checkAborted] using this
    have hab1 : checkAborted (some s) (st.checks + 1) = false := by
      have := habort 1 (by omega)
      simpa [checkAborted] using this
    have hab2 : checkAborted (some s) (st.checks + 2) = false := by
      have := habort 2 (by omega)
      simpa [checkAborted] using this
    rw [attemptLoopGo_retry_cont cfg shouldRetry op (some s) abortErr jit i m
      rest f a0 st (e a0) (le_of_lt hlt0) hab0 hop0 hcls0 hlt0 hab1 hab2]
    have hop1 : ∀ b, b ≤ n → op i (a0 + 1 + b) = .error (e (a0 + 1 + b)) := by
      intro b hb
      rw [show a0 + 1 + b = a0 + (b + 1) from by omega]
      exact hop (b + 1) (by omega)
    have hcls1 : ∀ b, b ≤ n → shouldRetry (e (a0 + 1 + b)) = .retry := by
      intro b hb
      rw [show a0 + 1 + b = a0 + (b + 1) from by omega]
      exact hcls (b + 1) (by omega)
    have hlt1 : ∀ b, b ≤ n →
        ((a0 + 1 + b : ℕ) : ℤ) < cfg.maxRetriesPerModel := by
      intro b hb
      rw [show a0 + 1 + b = a0 + (b + 1) from by omega]
      exact hlt (b + 1) (by omega)
    have habort1 : ∀ j, j < 3 * n + 2 →
        s.abortedAt (st.checks + 1 + 2 + j) = false := by
      intro j hj
      rw [show st.checks + 1 + 2 + j = st.checks + (3 + j) from by omega]
      exact habort (3 + j) (by omega)
    have hfire1 : s.abortedAt (st.checks + 1 + 2 + (3 * n + 2)) = true := by
      rw [show st.checks + 1 + 2 + (3 * n + 2) =
        st.checks + (3 * (n + 1) + 2) from by omega]
      exact hfire
    have hih := ih f (a0 + 1)
      (⟨st.errors ++ [(m, e a0)],
        st.events ++ [.error i m (e a0) .retry,
          .retry i m (a0 + 1) cfg.maxRetriesPerModel (e a0)
            (calculateDelay a0 cfg.baseDelayMs cfg.maxDelayMs (jit st.draws))],
        st.opCalls ++ [(i, a0)], st.checks + 1 + 2, st.draws + 1⟩ :
        St M Err)
      (by omega) hop1 hcls1 hlt1 habort1 hfire1
    rw [hih]
    congr 1
    rw [St.mk.injEq]
    refine ⟨?_, ?_, ?_, ?_, ?_⟩
    · rw [range_map_shift (fun k => (m, e (a0 + k))) (n + 1)]
      simp [Nat.add_assoc, Nat.add_comm, Nat.add_left_comm]
    · rw [range_flatMap_shift (fun k =>
        ([.error i m (e (a0 + k)) .retry,
          .retry i m (a0 + k + 1) cfg.maxRetriesPerModel (e (a0 + k))
            (calculateDelay (a0 + k) cfg.baseDelayMs cfg.maxDelayMs
              (jit (st.draws + k)))] : List (Event M Err))) (n + 1)]
      simp [Nat.add_assoc, Nat.add_comm, Nat.add_left_comm]
    · rw [range_map_shift (fun k => (i, a0 + k)) (n + 1)]
      simp [Nat.add_assoc, Nat.add_comm, Nat.add_left_comm]
    · show st.checks + 1 + 2 + (3 * n + 2) + 1 =
        st.checks + (3 * (n + 1) + 2) + 1
      omega
    · show st.draws + 1 + (n + 1) = st.draws + (n + 1 + 1)
      omega

/-- Claim C4: from any orchestrator position, when the signal first becomes
active while the orchestrator waits out the backoff of attempt a0 + n (all
those attempts having failed with Retry-classified failures within budget),
the resumed run fails with the cancellation value — the signal reason, or
the generic abort error when none is set — not with an aggregate error: the
trace ends with the Retry event emitted before the sleep (no Retry, Fallback
or Error event after the cancellation), and the failures recorded from the
cancelled invocation stay unsurfaced in the errors array. -/
theorem cancel_during_backoff_propagates {M T Err : Type} (cfg : Cfg)
    (shouldRetry : Err → Classification) (op : ℕ → ℕ → Except Err T)
    (s : AbortSignal Err) (abortErr : Err) (jit : ℕ → ℚ) (i : ℕ) (m : M)
    (rest : List M) (e : ℕ → Err) (n a0 : ℕ) (st : St M Err)
    (hop : ∀ b, b ≤ n → op i (a0 + b) = .error (e (a0 + b)))
    (hcls : ∀ b, b ≤ n → shouldRetry (e (a0 + b)) = .retry)
    (hlt : ∀ b, b ≤ n → ((a0 + b : ℕ) : ℤ) < cfg.maxRetriesPerModel)
    (habort : ∀ j, j < 3 * n + 2 → s.abortedAt (st.checks + j) = false)
    (hfire : s.abortedAt (st.checks + (3 * n + 2)) = true) :
    resumeRun cfg shouldRetry op (some s) abortErr jit i m rest a0 st =
      (.thrown (s.reason.getD abortErr),
       ⟨st.errors ++ (List.range (n + 1)).map (fun k => (m, e (a0 + k))),
        st.events ++ (List.range (n + 1)).flatMap (fun k =>
          [.error i m (e (a0 + k)) .retry,
           .retry i m (a0 + k + 1) cfg.maxRetriesPerModel (e (a0 + k))
             (calculateDelay (a0 + k) cfg.baseDelayMs cfg.maxDelayMs
               (jit (st.draws + k)))]),
        st.opCalls ++ (List.range (n + 1)).map (fun k => (i, a0 + k)),
        st.checks + (3 * n + 2) + 1, st.draws + (n + 1)⟩) := by
  have hfuel : n < (cfg.maxRetriesPerModel + 1).toNat - a0 := by
    have := hlt n (le_refl n)
    omega
  have h := attemptLoopGo_cancel_in_sleep (T := T) cfg shouldRetry op s
    abortErr jit i m rest e n ((cfg.maxRetriesPerModel + 1).toNat - a0) a0 st
    hfuel hop hcls hlt habort hfire
  unfold resumeRun attemptLoop
  rw [h]

/-- Witness for cancel_during_backoff_propagates: one model, budget 2, a
500-classified failure on attempt 0, the signal firing during the first
backoff sleep (third observation): the run raises the signal reason with
the Error and Retry events of attempt 0 only. -/
theorem cancel_during_backoff_witness :
    resumeRun ⟨2, 1000, 30000⟩ defaultShouldRetry
        (fun _ _ => (Except.error e500 : Except JSError Unit))
        (some ⟨fun nChk => decide (2 ≤ nChk), some cancelReason⟩) abortE
        (fun _ => 0) 0 "unstable" [] 0 St.init =
      (.thrown cancelReason,
       ⟨[("unstable", e500)],
        [.error 0 "unstable" e500 .retry,
         .retry 0 "unstable" 1 2 e500 500],
        [(0, 0)], 3, 1⟩) := by
  have h := cancel_during_backoff_propagates ⟨2, 1000, 30000⟩
    defaultShouldRetry (fun _ _ => (Except.error e500 : Except JSError Unit))
    ⟨fun nChk => decide (2 ≤ nChk), some cancelReason⟩ abortE (fun _ => 0)
    0 "unstable" [] (fun _ => e500) 0 0 St.init
    (fun _ _ => rfl) (fun _ _ => rfl)
    (fun b hb => by
      show ((0 + b : ℕ) : ℤ) < (2 : ℤ)
      omega)
    (fun j hj => by
      show decide (2 ≤ 0 + j) = false
      simp only [decide_eq_false_iff_not]
      omega)
    (by decide)
  have hdelay : calculateDelay 0 1000 30000 0 = 500 := by
    simp only [calculateDelay]
    norm_num
  rw [h]
  simp [hdelay, St.init, List.range_succ]

/-- Witness for negative_retries_empty_exhaustion on a one-model chain. -/
theorem negative_retries_witness :
    executeWithFallback ["only-model"] ⟨-1, 1000, 30000⟩ defaultShouldRetry
        (fun _ _ => (Except.error e429 : Except JSError Unit)) none abortE
        (fun _ => 0) =
      (.exhausted [], St.init) :=
  negative_retries_empty_exhaustion _ _ _ _ _ _ _ (by norm_num)
